import Mathlib

/-!
Shallow embedding of the buck2 provider-collection core
(`app/buck2_build_api/src/interpreter/rule_defs/provider/collection.rs`)
and of the soft-error facility (`app/buck2_core/src/error.rs`).

Starlark values are modelled by an inductive `Value` capturing exactly the
capabilities the collection code uses: being a list, being a provider
instance (a user-defined provider or the distinguished `DefaultInfo`
provider), being a provider callable (a provider *type* descriptor), being
a (resolved) promise, or being some other value.  A `SmallMap` is an
insertion-ordered association list with unique keys, mirroring
`starlark::collections::SmallMap` as used by the source.
-/

set_option autoImplicit false
set_option linter.unusedVariables false

namespace Buck2

/-- Model of `Arc<ProviderId>`: an opaque, comparable provider-type identity.
The `DefaultInfo` identity (`DefaultInfoCallable::provider_id()`) is a
distinguished singleton in the Rust code; a user-defined provider can never
share it, which the inductive makes structural. -/
inductive ProviderId where
  | defaultInfoId : ProviderId
  | user : String → ProviderId
deriving DecidableEq

/-- `ProviderId::name`: the display name used in diagnostics. -/
def ProviderId.name : ProviderId → String
  | .defaultInfoId => "DefaultInfo"
  | .user n => n

/-- Model of a Starlark `Value` restricted to the capabilities used by
`collection.rs`: lists, provider instances (user providers carry their
identity string and an opaque payload rendering; `DefaultInfo` carries its
`sub_targets` mapping and `default_outputs` list), frozen provider
collections (as stored inside `sub_targets`), provider callables
(provider-type descriptors used as query keys), resolved promises, `None`,
and strings standing for any other non-provider value. -/
inductive Value where
  | vlist : List Value → Value
  | prov : String → String → Value
  | defaultInfo : List (String × Value) → List Value → Value
  | collection : List (ProviderId × Value) → Value
  | callable : ProviderId → Value
  | promise : Value → Value
  | vnone : Value
  | vstr : String → Value

/-- Model of Starlark `Value::to_repr`, the textual form quoted in errors. -/
def Value.to_repr : Value → String
  | .vlist xs =>
      "[" ++ String.intercalate ", " (xs.attach.map fun ⟨x, hx⟩ => Value.to_repr x) ++ "]"
  | .prov n payload => n ++ "(" ++ payload ++ ")"
  | .defaultInfo st douts =>
      "DefaultInfo(sub_targets=" ++
        String.intercalate ", " (st.attach.map fun ⟨p, hp⟩ => p.1 ++ ": " ++ Value.to_repr p.2) ++
        ", default_outputs=[" ++
        String.intercalate ", " (douts.attach.map fun ⟨x, hx⟩ => Value.to_repr x) ++ "])"
  | .collection ps =>
      "Providers([" ++
        String.intercalate ", " (ps.attach.map fun ⟨p, hp⟩ => Value.to_repr p.2) ++ "])"
  | .callable id => "provider_callable(" ++ id.name ++ ")"
  | .promise v => "promise(" ++ v.to_repr ++ ")"
  | .vnone => "None"
  | .vstr s => "\x22" ++ s ++ "\x22"
decreasing_by
  all_goals simp_wf
  all_goals first
    | (have h := List.sizeOf_lt_of_mem hx; omega)
    | (have h := List.sizeOf_lt_of_mem hp;
       rcases p with ⟨a, b⟩; simp [Prod.mk.sizeOf_spec] at h ⊢; omega)

/-- Model of Starlark `Value::get_type`, the dynamic type name of a value. -/
def Value.get_type : Value → String
  | .vlist _ => "list"
  | .prov n _ => n
  | .defaultInfo _ _ => "DefaultInfo"
  | .collection _ => "provider_collection"
  | .callable _ => "provider_callable"
  | .promise _ => "promise"
  | .vnone => "NoneType"
  | .vstr _ => "string"

/-- `value.as_provider()`: a value exposes a provider identity exactly when
it is a provider instance. A promise or any other value does not. -/
def Value.as_provider : Value → Option ProviderId
  | .prov n _ => some (.user n)
  | .defaultInfo _ _ => some .defaultInfoId
  | _ => none

/-- `index.as_provider_callable()` followed by `require_id`: a query key
resolves to a provider-type identity exactly when it is a callable. -/
def Value.as_provider_callable : Value → Option ProviderId
  | .callable id => some id
  | _ => none

/-- `StarlarkPromise::get_recursive`: see through (nested) resolved
promises on the construction input value. -/
def StarlarkPromise.get_recursive : Value → Value
  | .promise v => StarlarkPromise.get_recursive v
  | v => v

/-- `ListRef::from_value`: view a value as a list, when it is one. -/
def ListRef.from_value : Value → Option (List Value)
  | .vlist xs => some xs
  | _ => none

/-- `starlark::collections::SmallMap`: an insertion-ordered map modelled as
an association list whose keys are unique in every reachable state. -/
abbrev SmallMap (K V : Type) : Type := List (K × V)

/-- `SmallMap::get`: first entry with the requested key. -/
def SmallMap.get {K V : Type} [DecidableEq K] : SmallMap K V → K → Option V
  | [], _ => none
  | (k', v) :: rest, k => if k' = k then some v else SmallMap.get rest k

/-- `SmallMap::contains_key`. -/
def SmallMap.contains_key {K V : Type} [DecidableEq K] (m : SmallMap K V) (k : K) : Bool :=
  (SmallMap.get m k).isSome

/-- `SmallMap::insert`: replace in place when the key is present (returning
the previous value), append at the end otherwise. -/
def SmallMap.insertGet {K V : Type} [DecidableEq K] :
    SmallMap K V → K → V → Option V × SmallMap K V
  | [], k, v => (none, [(k, v)])
  | (k', v') :: rest, k, v =>
    if k' = k then (some v', (k', v) :: rest)
    else
      let r := SmallMap.insertGet rest k v
      (r.1, (k', v') :: r.2)

/-- Provider collection access operator (`GetOp` in the source). -/
inductive GetOp where
  | At : GetOp
  | In : GetOp
  | Get : GetOp
deriving DecidableEq

/-- `buck2_core::provider::label::NonDefaultProvidersName` (external label
type, consumed here as an opaque key): either a named sub-target path or an
unrecognized legacy flavor string. -/
inductive NonDefaultProvidersName where
  | Named : List String → NonDefaultProvidersName
  | UnrecognizedFlavor : String → NonDefaultProvidersName
deriving DecidableEq

/-- `buck2_core::provider::label::ProvidersName`. -/
inductive ProvidersName where
  | Default : ProvidersName
  | NonDefault : NonDefaultProvidersName → ProvidersName
deriving DecidableEq

/-- `ConfiguredProvidersLabel`: a configured target label (its unconfigured
rendering, as produced by `label.unconfigured().to_string()`) together with
the providers-name path selector. -/
structure ConfiguredProvidersLabel where
  target : String
  name : ProvidersName
deriving DecidableEq

/-- `ProviderCollectionError` from `collection.rs`, one constructor per
`thiserror` variant, carrying the same diagnostic payloads. -/
inductive ProviderCollectionError where
  | CollectionNotAList : String → ProviderCollectionError
  | CollectionElementNotAProvider : String → ProviderCollectionError
  | CollectionSpecifiedProviderTwice : String → String → String → ProviderCollectionError
  | CollectionMissingDefaultInfo : String → ProviderCollectionError
  | RequestedInvalidSubTarget : String → ConfiguredProvidersLabel → List String →
      ProviderCollectionError
  | UnknownFlavors : String → String → ProviderCollectionError
  | ValueIsNotDefaultInfo : String → ProviderCollectionError
  | AtTypeNotProvider : GetOp → String → ProviderCollectionError
  | AtNotFound : String → List String → ProviderCollectionError
deriving DecidableEq

/-- The element loop inside `try_from_value_impl`: for each list element in
order, require a provider identity (`ElementNotAProvider` otherwise) and
insert it into the map, failing with `SpecifiedProviderTwice` when
`SmallMap::insert` reports an existing entry for the same identity. -/
def insertLoop : List Value → SmallMap ProviderId Value →
    Except ProviderCollectionError (SmallMap ProviderId Value)
  | [], providers => .ok providers
  | v :: rest, providers =>
    match Value.as_provider v with
    | some id =>
      match SmallMap.insertGet providers id v with
      | (some existing_value, _) =>
        .error (.CollectionSpecifiedProviderTwice id.name existing_value.to_repr v.to_repr)
      | (none, m) => insertLoop rest m
    | none => .error (.CollectionElementNotAProvider v.to_repr)

/-- `ProviderCollectionGen::try_from_value_impl`: resolve a promise on the
input, require a list, then validate and insert each element. -/
def try_from_value_impl (value : Value) :
    Except ProviderCollectionError (SmallMap ProviderId Value) :=
  match ListRef.from_value (StarlarkPromise.get_recursive value) with
  | none => .error (.CollectionNotAList (StarlarkPromise.get_recursive value).to_repr)
  | some list => insertLoop list []

/-- `ProviderCollectionGen<V>` (mutable collection). -/
structure ProviderCollection where
  providers : SmallMap ProviderId Value

/-- `ProviderCollectionGen::try_from_value`, the strict entry point:
additionally require that the `DefaultInfo` identity is present. -/
def try_from_value (value : Value) : Except ProviderCollectionError ProviderCollection :=
  match try_from_value_impl value with
  | .error e => .error e
  | .ok providers =>
    if SmallMap.contains_key providers ProviderId.defaultInfoId then
      .ok ⟨providers⟩
    else
      .error (.CollectionMissingDefaultInfo value.to_repr)

/-- `FrozenDefaultInfo`: the payload of the distinguished default-output
provider, as used by the sub-target resolver. -/
structure FrozenDefaultInfo where
  sub_targets : SmallMap String Value
  default_outputs : List Value

/-- `DefaultInfo::from_value` / `downcast_frozen_ref::<FrozenDefaultInfo>`:
the checked downcast of a value to the `DefaultInfo` provider type. -/
def DefaultInfo.from_value : Value → Option FrozenDefaultInfo
  | .defaultInfo st douts => some ⟨st, douts⟩
  | _ => none

/-- `ProviderCollectionGen::try_from_value_with_default_info`, the lenient
entry point: on a missing `DefaultInfo`, call the factory, type-check its
product and insert it under the `DefaultInfo` identity. -/
def try_from_value_with_default_info (value : Value)
    (default_info_creator : Unit → Value) :
    Except ProviderCollectionError ProviderCollection :=
  match try_from_value_impl value with
  | .error e => .error e
  | .ok providers =>
    if SmallMap.contains_key providers ProviderId.defaultInfoId then
      .ok ⟨providers⟩
    else
      let di_value := default_info_creator ()
      if (DefaultInfo.from_value di_value).isNone then
        .error (.ValueIsNotDefaultInfo di_value.to_repr)
      else
        .ok ⟨(SmallMap.insertGet providers ProviderId.defaultInfoId di_value).2⟩

/-- `ProviderCollectionGen::get_impl`, the common implementation of `[]`,
`in` and `.get`: the key must be a provider-type descriptor, whose identity
is then probed in the map (`Left` = found value, `Right` = missing id). -/
def ProviderCollection.get_impl (c : ProviderCollection) (index : Value) (op : GetOp) :
    Except ProviderCollectionError (Value ⊕ ProviderId) :=
  match Value.as_provider_callable index with
  | some provider_id =>
    match SmallMap.get c.providers provider_id with
    | some v => .ok (.inl v)
    | none => .ok (.inr provider_id)
  | none => .error (.AtTypeNotProvider op index.get_type)

/-- `ProviderCollectionGen::get`, the defaulted lookup: missing keys become
the `None` sentinel. -/
def ProviderCollection.get (c : ProviderCollection) (index : Value) :
    Except ProviderCollectionError Value :=
  match c.get_impl index .Get with
  | .ok (.inl v) => .ok v
  | .ok (.inr _) => .ok .vnone
  | .error e => .error e

/-- `StarlarkValue::at` for the collection, the indexed lookup: missing
keys fail with `AtNotFound`, listing all present provider names. -/
def ProviderCollection.atOp (c : ProviderCollection) (index : Value) :
    Except ProviderCollectionError Value :=
  match c.get_impl index .At with
  | .ok (.inl v) => .ok v
  | .ok (.inr provider_id) =>
    .error (.AtNotFound provider_id.name (c.providers.map fun k => k.1.name))
  | .error e => .error e

/-- `StarlarkValue::is_in` for the collection, the membership test. -/
def ProviderCollection.is_in (c : ProviderCollection) (other : Value) :
    Except ProviderCollectionError Bool :=
  match c.get_impl other .In with
  | .ok e => .ok e.isLeft
  | .error e => .error e

/-- `FrozenProviderCollection`: same map shape, values frozen. -/
structure FrozenProviderCollection where
  providers : SmallMap ProviderId Value

/-- The entry traversal inside `impl Freeze for ProviderCollection`:
`providers.into_iter().map(|(k, v)| Ok((k, freezer.freeze(v)?))).collect()`,
short-circuiting on the first failing value, in map order.  The freezer
itself is the external `starlark::values::Freezer`, taken as a parameter. -/
def freezePairs {ε : Type} (freezer : Value → Except ε Value) :
    List (ProviderId × Value) → Except ε (List (ProviderId × Value))
  | [] => .ok []
  | (k, v) :: rest =>
    match freezer v with
    | .error e => .error e
    | .ok fv =>
      match freezePairs freezer rest with
      | .error e => .error e
      | .ok frest => .ok ((k, fv) :: frest)

/-- `impl Freeze for ProviderCollection`. -/
def ProviderCollection.freeze {ε : Type} (freezer : Value → Except ε Value)
    (c : ProviderCollection) : Except ε FrozenProviderCollection :=
  match freezePairs freezer c.providers with
  | .error e => .error e
  | .ok providers => .ok ⟨providers⟩

/-- `FrozenProviderCollection::default_info`: fetch the `DefaultInfo` entry
and downcast it.  The two `expect` assertions of the source are modelled by
`none` (= panic); `some` is the non-panicking result. -/
def FrozenProviderCollection.default_info (c : FrozenProviderCollection) :
    Option FrozenDefaultInfo :=
  (SmallMap.get c.providers ProviderId.defaultInfoId).bind DefaultInfo.from_value

/-- `FrozenProviderCollection::default_info_value`: the raw `DefaultInfo`
entry; the `expect` assertion is modelled by `none` (= panic). -/
def FrozenProviderCollection.default_info_value (c : FrozenProviderCollection) :
    Option Value :=
  SmallMap.get c.providers ProviderId.defaultInfoId

/-- `FrozenProviderCollection::contains_provider`. -/
def FrozenProviderCollection.contains_provider (c : FrozenProviderCollection)
    (provider_id : ProviderId) : Bool :=
  SmallMap.contains_key c.providers provider_id

/-- `FrozenProviderCollection::provider_names`. -/
def FrozenProviderCollection.provider_names (c : FrozenProviderCollection) : List String :=
  c.providers.map fun k => k.1.name

/-- Checked downcast of an untyped value to `FrozenProviderCollection`
(`FrozenValueTyped::new` / `downcast_ref::<FrozenProviderCollection>`). -/
def Value.asProviderCollection : Value → Option FrozenProviderCollection
  | .collection ps => some ⟨ps⟩
  | _ => none

/-- Modelled from the spec: `FrozenDefaultInfo::get_sub_target_providers`
lives in `provider/mod.rs`, which is not part of the reviewed sources.  Per
spec 4.5, it looks the segment up in the sub-target mapping of the
default-output provider and re-validates with a checked downcast that the
stored value is structurally a provider collection. -/
def FrozenDefaultInfo.get_sub_target_providers (di : FrozenDefaultInfo)
    (name : String) : Option FrozenProviderCollection :=
  (SmallMap.get di.sub_targets name).bind Value.asProviderCollection

/-- `FrozenProviderCollectionValue`: a typed frozen handle, guaranteed by
construction to wrap a `FrozenProviderCollection`; modelled by holding the
collection directly (reference-counted duplication is value equality). -/
structure FrozenProviderCollectionValue where
  collection : FrozenProviderCollection

/-- The named-path descent loop inside
`FrozenProviderCollectionValue::lookup_inner` (the body of the `try_map`
closure).  `v` is the closure parameter, i.e. the collection of the handle
the lookup started from; `cur` is the mutable `collection_value` cursor.
`none` models a panic inside a `default_info` assertion; `some` carries the
structured result. -/
def lookupLoop (label : ConfiguredProvidersLabel) (v : FrozenProviderCollection) :
    List String → FrozenProviderCollection →
    Option (Except ProviderCollectionError FrozenProviderCollection)
  | [], cur => some (.ok cur)
  | provider_name :: rest, cur =>
    match cur.default_info with
    | none => none
    | some di =>
      match di.get_sub_target_providers provider_name with
      | some inner => lookupLoop label v rest inner
      | none =>
        match v.default_info with
        | none => none
        | some vdi =>
          some (.error (.RequestedInvalidSubTarget provider_name label
            (vdi.sub_targets.map fun s => s.1)))

/-- `FrozenProviderCollectionValue::lookup_inner`: dispatch on the label's
providers-name selector. -/
def FrozenProviderCollectionValue.lookup_inner (self : FrozenProviderCollectionValue)
    (label : ConfiguredProvidersLabel) :
    Option (Except ProviderCollectionError FrozenProviderCollectionValue) :=
  match label.name with
  | .Default => some (.ok self)
  | .NonDefault (.Named provider_names) =>
    match lookupLoop label self.collection provider_names self.collection with
    | none => none
    | some (.ok c) => some (.ok ⟨c⟩)
    | some (.error e) => some (.error e)
  | .NonDefault (.UnrecognizedFlavor flavor) =>
    some (.error (.UnknownFlavors label.target flavor))

/-- `HardErrorConfig` from `buck2_core/src/error.rs`: either a boolean or a
selected set of categories (`only=category1,category2`). -/
inductive HardErrorConfig where
  | bool : Bool → HardErrorConfig
  | selected : List String → HardErrorConfig
deriving DecidableEq

/-- `HardErrorConfig::should_hard_error`. -/
def HardErrorConfig.should_hard_error : HardErrorConfig → String → Bool
  | .bool v, _ => v
  | .selected s, category => s.contains category

/-- The observable outcome of one `handle_soft_error` call at one call
site: the updated site counter, whether the registered handler was called,
and the returned result. -/
structure SoftErrorOutcome where
  newCount : Nat
  handlerInvoked : Bool
  result : Except String String

/-- `handle_soft_error` from `buck2_core/src/error.rs`, modelled per call
site: `count.fetch_add(1)` returns the old counter value, the handler runs
when a handler is registered and the old value is below 10, and the error
is returned as `Ok` unless the hard-error config selects its category, in
which case it is returned as `Err` with added context. -/
def handle_soft_error (hard : Option HardErrorConfig) (handlerRegistered : Bool)
    (category : String) (err : String) (count : Nat) : SoftErrorOutcome :=
  { newCount := count + 1
    handlerInvoked := handlerRegistered && decide (count < 10)
    result :=
      match hard with
      | some h =>
        if h.should_hard_error category then
          .error ("Upgraded warning to failure via $BUCK2_HARD_ERROR: " ++ err)
        else
          .ok err
      | none => .ok err }

/-- Iterate `handle_soft_error` at one call site `n` times starting from
counter value `c`, returning the final counter value. -/
def runSoftErrors (hard : Option HardErrorConfig) (handlerRegistered : Bool)
    (category err : String) : Nat → Nat → Nat
  | 0, c => c
  | n + 1, c =>
    runSoftErrors hard handlerRegistered category err n
      (handle_soft_error hard handlerRegistered category err c).newCount

/-- `reset_soft_error_counters`: store 0 into every registered counter. -/
def reset_soft_error_counters (counters : List Nat) : List Nat :=
  counters.map fun _ => 0

/-- The provider entries a list of provider values contributes to the map,
in list order. -/
def providerEntries (xs : List Value) : List (ProviderId × Value) :=
  xs.filterMap fun x => (Value.as_provider x).map fun id => (id, x)

/-- Discriminator: is a construction result the `SpecifiedProviderTwice`
error? -/
def resultIsSpecifiedTwice : Except ProviderCollectionError ProviderCollection → Bool
  | .error (.CollectionSpecifiedProviderTwice _ _ _) => true
  | _ => false

/-- Discriminator: is a construction result the `ElementNotAProvider`
error? -/
def resultIsElementNotAProvider : Except ProviderCollectionError ProviderCollection → Bool
  | .error (.CollectionElementNotAProvider _) => true
  | _ => false

/-- Fixture: a collection holding `DefaultInfo` and a `FooInfo` provider. -/
def fixtureCollection : ProviderCollection :=
  ⟨[(.defaultInfoId, .defaultInfo [] []), (.user "FooInfo", .prov "FooInfo" "foo=foo1")]⟩

/-- Fixture: innermost frozen collection of the sub-target tree. -/
def leafProviders : List (ProviderId × Value) :=
  [(.defaultInfoId, .defaultInfo [] [])]

/-- Fixture: middle frozen collection, with one sub-target named `c`. -/
def innerProviders : List (ProviderId × Value) :=
  [(.defaultInfoId, .defaultInfo [("c", .collection leafProviders)] [])]

/-- Fixture: top frozen collection, with one sub-target named `a` holding
the middle collection. -/
def topProviders : List (ProviderId × Value) :=
  [(.defaultInfoId, .defaultInfo [("a", .collection innerProviders)] [])]

/-- Fixture: a label addressing sub-target path `a/b`. -/
def labelAB : ConfiguredProvidersLabel :=
  ⟨"cell//pkg:tgt", .NonDefault (.Named ["a", "b"])⟩

/-- Fixture: elements with a duplicated identity separated by a
non-provider element. -/
def c4Elems : List Value :=
  [.prov "FooInfo" "foo=1", .vstr "not a provider", .prov "FooInfo" "foo=2"]

/-- Fixture: construction input built from `c4Elems`. -/
def c4Input : Value := .vlist c4Elems

/-- Fixture: elements with a duplicated identity before a non-provider
element. -/
def c6Elems : List Value :=
  [.prov "FooInfo" "foo=1", .prov "FooInfo" "foo=2", .vstr "oops"]

/-- Fixture: construction input built from `c6Elems`. -/
def c6Input : Value := .vlist c6Elems

/-- Fixture: a freezer that fails on string values and keeps everything
else unchanged. -/
def c5Freezer : Value → Except String Value
  | .vstr _ => .error "cannot freeze this value"
  | v => .ok v

/-- Fixture: a collection all of whose values freeze under `c5Freezer`. -/
def c5OkCollection : ProviderCollection :=
  ⟨[(.defaultInfoId, .defaultInfo [] []), (.user "FooInfo", .prov "FooInfo" "foo=foo1")]⟩

/-- Fixture: a collection with one value that `c5Freezer` rejects. -/
def c5BadCollection : ProviderCollection :=
  ⟨[(.defaultInfoId, .defaultInfo [] []), (.user "BadInfo", .vstr "unfreezable")]⟩

/-- Fixture: a construction input holding exactly one DefaultInfo. -/
def diOnlyInput : Value := .vlist [.defaultInfo [] []]

/-- Fixture: the provider map produced from `diOnlyInput`. -/
def diOnlyMap : SmallMap ProviderId Value := [(.defaultInfoId, .defaultInfo [] [])]

/-- Fixture: a freezer that never fails and keeps values unchanged. -/
def idFreezer : Value → Except Unit Value := fun v => .ok v

/-- Fixture: strict-entry-point input lacking DefaultInfo. -/
def noDIInput : Value := .vlist [.prov "FooInfo" "foo=foo1"]

/-- Fixture: the provider map produced from `noDIInput`. -/
def noDIMap : SmallMap ProviderId Value := [(.user "FooInfo", .prov "FooInfo" "foo=foo1")]

/-! Helper lemmas about `SmallMap`. -/

theorem SmallMap.get_eq_none_iff {K V : Type} [DecidableEq K] (m : SmallMap K V) (k : K) :
    SmallMap.get m k = none ↔ k ∉ m.map Prod.fst := by
  induction m with
  | nil => simp [SmallMap.get]
  | cons p rest ih =>
    obtain ⟨k', v⟩ := p
    by_cases h : k' = k
    · subst h; simp [SmallMap.get]
    · simp [SmallMap.get, h, ih, Ne.symm h]

theorem SmallMap.get_mem {K V : Type} [DecidableEq K] {m : SmallMap K V} {k : K} {v : V}
    (h : SmallMap.get m k = some v) : (k, v) ∈ m := by
  induction m with
  | nil => simp [SmallMap.get] at h
  | cons p rest ih =>
    obtain ⟨k', v'⟩ := p
    by_cases hk : k' = k
    · subst hk
      rw [SmallMap.get, if_pos rfl] at h
      obtain rfl : v' = v := Option.some.inj h
      exact List.mem_cons_self _ _
    · rw [SmallMap.get, if_neg hk] at h
      exact List.mem_cons_of_mem _ (ih h)

theorem SmallMap.insertGet_fst {K V : Type} [DecidableEq K] (m : SmallMap K V) (k : K) (v : V) :
    (SmallMap.insertGet m k v).1 = SmallMap.get m k := by
  induction m with
  | nil => simp [SmallMap.insertGet, SmallMap.get]
  | cons p rest ih =>
    obtain ⟨k', v'⟩ := p
    by_cases h : k' = k <;> simp [SmallMap.insertGet, SmallMap.get, h, ih]

theorem SmallMap.insertGet_snd_of_not_mem {K V : Type} [DecidableEq K] {m : SmallMap K V}
    {k : K} (h : k ∉ m.map Prod.fst) (v : V) :
    (SmallMap.insertGet m k v).2 = m ++ [(k, v)] := by
  induction m with
  | nil => simp [SmallMap.insertGet]
  | cons p rest ih =>
    obtain ⟨k', v'⟩ := p
    simp only [List.map_cons, List.mem_cons, not_or] at h
    simp [SmallMap.insertGet, Ne.symm h.1, ih h.2]

theorem SmallMap.get_of_mem_keys {K V : Type} [DecidableEq K] {m : SmallMap K V} {k : K}
    (h : k ∈ m.map Prod.fst) : ∃ v, SmallMap.get m k = some v := by
  cases hg : SmallMap.get m k with
  | none => exact absurd ((SmallMap.get_eq_none_iff m k).mp hg) (by simp [h])
  | some v => exact ⟨v, rfl⟩

/-! Helper lemmas about the construction loop. -/

theorem insertLoop_cons_of_not_provider {x : Value} {rest : List Value}
    {m : SmallMap ProviderId Value} (hx : Value.as_provider x = none) :
    insertLoop (x :: rest) m = .error (.CollectionElementNotAProvider x.to_repr) := by
  simp [insertLoop, hx]

theorem insertLoop_cons_of_provider {x : Value} {id : ProviderId} {rest : List Value}
    {m : SmallMap ProviderId Value} (hx : Value.as_provider x = some id) :
    insertLoop (x :: rest) m =
      match SmallMap.get m id with
      | some existing_value =>
        .error (.CollectionSpecifiedProviderTwice id.name existing_value.to_repr x.to_repr)
      | none => insertLoop rest ((SmallMap.insertGet m id x).2) := by
  have hfst := SmallMap.insertGet_fst m id x
  rcases hp : SmallMap.insertGet m id x with ⟨fst, snd⟩
  rw [hp] at hfst
  simp only [insertLoop, hx, hp]
  rw [← hfst]
  cases fst <;> simp

theorem insertLoop_clean {pre : List Value} :
    ∀ {m : SmallMap ProviderId Value} (rest : List Value),
    (∀ y ∈ pre, (Value.as_provider y).isSome) →
    (m.map Prod.fst ++ pre.filterMap Value.as_provider).Nodup →
    insertLoop (pre ++ rest) m = insertLoop rest (m ++ providerEntries pre) := by
  induction pre with
  | nil => intro m rest _ _; simp [providerEntries]
  | cons y pre ih =>
    intro m rest hall hnd
    obtain ⟨id, hy⟩ := Option.isSome_iff_exists.mp (hall y (by simp))
    rw [List.filterMap_cons_some hy] at hnd
    have hid : id ∉ m.map Prod.fst := by
      intro hmem
      exact (List.disjoint_of_nodup_append hnd) hmem (by simp)
    have hget : SmallMap.get m id = none := (SmallMap.get_eq_none_iff m id).mpr hid
    have hsnd : (SmallMap.insertGet m id y).2 = m ++ [(id, y)] :=
      SmallMap.insertGet_snd_of_not_mem hid y
    have hstep : insertLoop ((y :: pre) ++ rest) m = insertLoop (pre ++ rest) (m ++ [(id, y)]) := by
      rw [List.cons_append, insertLoop_cons_of_provider hy, hget, hsnd]
    have hnd2 : ((m ++ [(id, y)]).map Prod.fst ++ pre.filterMap Value.as_provider).Nodup := by
      simpa using hnd
    have hrec := ih rest (fun z hz => hall z (List.mem_cons_of_mem _ hz)) hnd2
    have hentries : providerEntries (y :: pre) = (id, y) :: providerEntries pre := by
      simp [providerEntries, List.filterMap_cons, hy]
    rw [hstep, hrec, hentries]
    simp

theorem insertLoop_entries {xs : List Value} :
    ∀ {m m' : SmallMap ProviderId Value},
    insertLoop xs m = .ok m' →
    (∀ p ∈ m, Value.as_provider p.2 = some p.1) →
    ∀ p ∈ m', Value.as_provider p.2 = some p.1 := by
  induction xs with
  | nil =>
    intro m m' h hm
    simp only [insertLoop] at h
    obtain rfl : m = m' := Except.ok.inj h
    exact hm
  | cons x rest ih =>
    intro m m' h hm
    cases hx : Value.as_provider x with
    | none => rw [insertLoop_cons_of_not_provider hx] at h; exact absurd h (by simp)
    | some id =>
      rw [insertLoop_cons_of_provider hx] at h
      cases hg : SmallMap.get m id with
      | some w => rw [hg] at h; exact absurd h (by simp)
      | none =>
        rw [hg] at h
        have hid : id ∉ m.map Prod.fst := (SmallMap.get_eq_none_iff m id).mp hg
        rw [SmallMap.insertGet_snd_of_not_mem hid x] at h
        refine ih h ?_
        intro p hp
        rcases List.mem_append.mp hp with hp | hp
        · exact hm p hp
        · simp only [List.mem_singleton] at hp
          subst hp
          exact hx

theorem insertLoop_dup_error {xs : List Value} :
    ∀ {m : SmallMap ProviderId Value},
    (∀ y ∈ xs, (Value.as_provider y).isSome) →
    (m.map Prod.fst).Nodup →
    ¬ (m.map Prod.fst ++ xs.filterMap Value.as_provider).Nodup →
    ∃ e, insertLoop xs m = .error e := by
  induction xs with
  | nil => intro m _ hm hnd; simp at hnd; exact absurd hm hnd
  | cons y rest ih =>
    intro m hall hm hnd
    obtain ⟨id, hy⟩ := Option.isSome_iff_exists.mp (hall y (by simp))
    rw [List.filterMap_cons_some hy] at hnd
    rw [insertLoop_cons_of_provider hy]
    cases hg : SmallMap.get m id with
    | some w => exact ⟨_, rfl⟩
    | none =>
      have hid : id ∉ m.map Prod.fst := (SmallMap.get_eq_none_iff m id).mp hg
      rw [SmallMap.insertGet_snd_of_not_mem hid y]
      refine ih (fun z hz => hall z (List.mem_cons_of_mem _ hz)) ?_ ?_
      · have hnodup : (m.map Prod.fst ++ [id]).Nodup :=
          List.Nodup.append hm (List.nodup_singleton id) (by simp [hid])
        simpa using hnodup
      · intro hcontra
        exact hnd (by simpa using hcontra)

theorem insertLoop_error_shape {xs₀ : List Value} {xs : List Value} :
    ∀ {m : SmallMap ProviderId Value} {e : ProviderCollectionError},
    (∀ y ∈ xs, y ∈ xs₀ ∧ (Value.as_provider y).isSome) →
    (∀ p ∈ m, p.2 ∈ xs₀ ∧ Value.as_provider p.2 = some p.1) →
    insertLoop xs m = .error e →
    ∃ pid orig confl,
      e = .CollectionSpecifiedProviderTwice pid.name orig.to_repr confl.to_repr ∧
      orig ∈ xs₀ ∧ confl ∈ xs₀ ∧
      Value.as_provider orig = some pid ∧ Value.as_provider confl = some pid := by
  induction xs with
  | nil => intro m e _ _ h; exact absurd h (by simp [insertLoop])
  | cons y rest ih =>
    intro m e hall hm h
    obtain ⟨hy₀, hysome⟩ := hall y (by simp)
    obtain ⟨id, hy⟩ := Option.isSome_iff_exists.mp hysome
    rw [insertLoop_cons_of_provider hy] at h
    cases hg : SmallMap.get m id with
    | some w =>
      rw [hg] at h
      obtain ⟨hw₀, hwid⟩ := hm (id, w) (SmallMap.get_mem hg)
      refine ⟨id, w, y, (Except.error.inj h).symm, hw₀, hy₀, hwid, hy⟩
    | none =>
      rw [hg] at h
      have hid : id ∉ m.map Prod.fst := (SmallMap.get_eq_none_iff m id).mp hg
      rw [SmallMap.insertGet_snd_of_not_mem hid y] at h
      refine ih (fun z hz => hall z (List.mem_cons_of_mem _ hz)) ?_ h
      intro p hp
      rcases List.mem_append.mp hp with hp | hp
      · exact hm p hp
      · simp only [List.mem_singleton] at hp
        subst hp
        exact ⟨hy₀, hy⟩

/-- Both construction entry points propagate an error of the element
validation loop unchanged. -/
theorem construction_error_propagates {value : Value} {e : ProviderCollectionError}
    (h : try_from_value_impl value = .error e) :
    try_from_value value = .error e ∧
    ∀ creator, try_from_value_with_default_info value creator = .error e := by
  refine ⟨?_, fun creator => ?_⟩ <;>
    simp [try_from_value, try_from_value_with_default_info, h]

theorem try_from_value_impl_ok_inv {value : Value} {m : SmallMap ProviderId Value}
    (h : try_from_value_impl value = .ok m) :
    ∃ list, ListRef.from_value (StarlarkPromise.get_recursive value) = some list ∧
      insertLoop list [] = .ok m := by
  unfold try_from_value_impl at h
  split at h
  · exact absurd h (by simp)
  · rename_i list hl
    exact ⟨list, hl, h⟩

theorem try_from_value_ok_inv {value : Value} {c : ProviderCollection}
    (h : try_from_value value = .ok c) :
    try_from_value_impl value = .ok c.providers ∧
    SmallMap.contains_key c.providers ProviderId.defaultInfoId = true := by
  unfold try_from_value at h
  split at h
  · exact absurd h (by simp)
  · rename_i m himpl
    split at h
    · rename_i hc
      obtain rfl : (⟨m⟩ : ProviderCollection) = c := Except.ok.inj h
      exact ⟨himpl, hc⟩
    · exact absurd h (by simp)

/-- Every entry of a collection built by `try_from_value` is a provider
value stored under its own identity. -/
theorem try_from_value_entries {value : Value} {c : ProviderCollection}
    (h : try_from_value value = .ok c) :
    ∀ p ∈ c.providers, Value.as_provider p.2 = some p.1 := by
  obtain ⟨himpl, _⟩ := try_from_value_ok_inv h
  obtain ⟨list, _, hloop⟩ := try_from_value_impl_ok_inv himpl
  exact insertLoop_entries hloop (by simp)

/-! Helper lemmas about the freeze transition. -/

theorem freezePairs_ok_forall {ε : Type} {freezer : Value → Except ε Value} :
    ∀ {ps qs : List (ProviderId × Value)}, freezePairs freezer ps = .ok qs →
      List.Forall₂ (fun p q => p.1 = q.1 ∧ freezer p.2 = .ok q.2) ps qs := by
  intro ps
  induction ps with
  | nil =>
    intro qs h
    simp only [freezePairs] at h
    obtain rfl : ([] : List (ProviderId × Value)) = qs := Except.ok.inj h
    exact .nil
  | cons p rest ih =>
    intro qs h
    obtain ⟨k, v⟩ := p
    rw [freezePairs] at h
    split at h
    · exact absurd h (by simp)
    · rename_i fv hv
      split at h
      · exact absurd h (by simp)
      · rename_i frest hr
        obtain rfl : (k, fv) :: frest = qs := Except.ok.inj h
        exact .cons ⟨rfl, hv⟩ (ih hr)

theorem freeze_ok_inv {ε : Type} {freezer : Value → Except ε Value}
    {c : ProviderCollection} {fc : FrozenProviderCollection}
    (h : c.freeze freezer = .ok fc) :
    freezePairs freezer c.providers = .ok fc.providers := by
  unfold ProviderCollection.freeze at h
  split at h
  · exact absurd h (by simp)
  · rename_i qs hp
    obtain rfl : (⟨qs⟩ : FrozenProviderCollection) = fc := Except.ok.inj h
    exact hp

theorem forall₂_keys_eq {ps qs : List (ProviderId × Value)}
    {R : ProviderId × Value → ProviderId × Value → Prop}
    (hR : ∀ p q, R p q → p.1 = q.1)
    (h : List.Forall₂ R ps qs) : qs.map Prod.fst = ps.map Prod.fst := by
  induction h with
  | nil => rfl
  | cons h₁ h₂ ih => simp [hR _ _ h₁, ih]

theorem forall₂_mem_left {α β : Type} {R : α → β → Prop} {ps : List α} {qs : List β}
    (h : List.Forall₂ R ps qs) {p : α} (hp : p ∈ ps) : ∃ q ∈ qs, R p q := by
  induction h with
  | nil => cases hp
  | cons h₁ h₂ ih =>
    rcases List.mem_cons.mp hp with rfl | hp'
    · exact ⟨_, by simp, h₁⟩
    · obtain ⟨q, hq, hr⟩ := ih hp'
      exact ⟨q, List.mem_cons_of_mem _ hq, hr⟩

theorem freezePairs_get {ε : Type} {freezer : Value → Except ε Value} :
    ∀ {ps qs : SmallMap ProviderId Value}, freezePairs freezer ps = .ok qs →
    ∀ {k : ProviderId} {v : Value}, SmallMap.get ps k = some v →
    ∃ w, freezer v = .ok w ∧ SmallMap.get qs k = some w := by
  intro ps
  induction ps with
  | nil => intro qs _ k v hg; simp [SmallMap.get] at hg
  | cons p rest ih =>
    intro qs h k v hg
    obtain ⟨k', v'⟩ := p
    rw [freezePairs] at h
    split at h
    · exact absurd h (by simp)
    · rename_i fv hv
      split at h
      · exact absurd h (by simp)
      · rename_i frest hr
        obtain rfl : (k', fv) :: frest = qs := Except.ok.inj h
        by_cases hk : k' = k
        · subst hk
          rw [SmallMap.get, if_pos rfl] at hg
          obtain rfl : v' = v := Option.some.inj hg
          exact ⟨fv, hv, by rw [SmallMap.get, if_pos rfl]⟩
        · rw [SmallMap.get, if_neg hk] at hg
          obtain ⟨w, hw, hgw⟩ := ih hr hg
          exact ⟨w, hw, by rw [SmallMap.get, if_neg hk]; exact hgw⟩

/-! Helper lemma about the sub-target descent loop. -/

theorem lookupLoop_error_shape {label : ConfiguredProvidersLabel}
    {v : FrozenProviderCollection} :
    ∀ {names : List String} {cur : FrozenProviderCollection} {e : ProviderCollectionError},
    lookupLoop label v names cur = some (.error e) →
    ∃ seg vdi, seg ∈ names ∧ v.default_info = some vdi ∧
      e = .RequestedInvalidSubTarget seg label (vdi.sub_targets.map fun s => s.1) := by
  intro names
  induction names with
  | nil => intro cur e h; simp [lookupLoop] at h
  | cons seg rest ih =>
    intro cur e h
    rw [lookupLoop] at h
    split at h
    · exact absurd h (by simp)
    · rename_i di hdi
      split at h
      · rename_i inner hsub
        obtain ⟨seg', vdi, hmem, hvdi, he⟩ := ih h
        exact ⟨seg', vdi, List.mem_cons_of_mem _ hmem, hvdi, he⟩
      · rename_i hsub
        split at h
        · exact absurd h (by simp)
        · rename_i vdi hvdi
          have he := Option.some.inj h
          exact ⟨seg, vdi, List.mem_cons_self _ _, hvdi, (Except.error.inj he).symm⟩

/-! Claim theorems. -/

/-- C2: for every collection and provider-type key, if the identity is
present then the membership test is true and indexed access and defaulted
get both return the same stored value; if it is absent then membership is
false, get returns the `None` sentinel, and indexed access fails with
`NotFound` listing the requested provider name and the names of all
providers present, in map order. -/
theorem C2_operator_consistency (c : ProviderCollection) (id : ProviderId) :
    (∀ v, SmallMap.get c.providers id = some v →
      c.is_in (.callable id) = .ok true ∧
      c.atOp (.callable id) = .ok v ∧
      c.get (.callable id) = .ok v) ∧
    (SmallMap.get c.providers id = none →
      c.is_in (.callable id) = .ok false ∧
      c.get (.callable id) = .ok .vnone ∧
      c.atOp (.callable id) =
        .error (.AtNotFound id.name (c.providers.map fun k => k.1.name))) := by
  constructor
  · intro v hv
    refine ⟨?_, ?_, ?_⟩ <;>
      simp [ProviderCollection.is_in, ProviderCollection.atOp, ProviderCollection.get,
        ProviderCollection.get_impl, Value.as_provider_callable, hv]
  · intro hn
    refine ⟨?_, ?_, ?_⟩ <;>
      simp [ProviderCollection.is_in, ProviderCollection.atOp, ProviderCollection.get,
        ProviderCollection.get_impl, Value.as_provider_callable, hn]

/-- C2 witness at a concrete collection with a present and an absent key. -/
theorem C2_operator_consistency_witness :
    (fixtureCollection.is_in (.callable (.user "FooInfo")) = .ok true ∧
     fixtureCollection.atOp (.callable (.user "FooInfo")) = .ok (.prov "FooInfo" "foo=foo1") ∧
     fixtureCollection.get (.callable (.user "FooInfo")) = .ok (.prov "FooInfo" "foo=foo1")) ∧
    (fixtureCollection.is_in (.callable (.user "BarInfo")) = .ok false ∧
     fixtureCollection.get (.callable (.user "BarInfo")) = .ok .vnone ∧
     fixtureCollection.atOp (.callable (.user "BarInfo")) =
       .error (.AtNotFound "BarInfo" ["DefaultInfo", "FooInfo"])) :=
  ⟨(C2_operator_consistency fixtureCollection (.user "FooInfo")).1 _ rfl,
   (C2_operator_consistency fixtureCollection (.user "BarInfo")).2 rfl⟩

/-- C7: a query key that is not a provider-type descriptor makes all three
query operators fail with `KeyNotAProviderType`, naming the operator used
and the dynamic type of the supplied key. -/
theorem C7_key_not_provider_type (c : ProviderCollection) (key : Value)
    (h : Value.as_provider_callable key = none) :
    c.atOp key = .error (.AtTypeNotProvider .At key.get_type) ∧
    c.is_in key = .error (.AtTypeNotProvider .In key.get_type) ∧
    c.get key = .error (.AtTypeNotProvider .Get key.get_type) := by
  refine ⟨?_, ?_, ?_⟩ <;>
    simp [ProviderCollection.atOp, ProviderCollection.is_in, ProviderCollection.get,
      ProviderCollection.get_impl, h]

/-- C7 witness: querying with a provider instance (not a type) fails on
all three operators. -/
theorem C7_key_not_provider_type_witness :
    fixtureCollection.atOp (.prov "FooInfo" "foo=foo1") =
      .error (.AtTypeNotProvider .At "FooInfo") ∧
    fixtureCollection.is_in (.prov "FooInfo" "foo=foo1") =
      .error (.AtTypeNotProvider .In "FooInfo") ∧
    fixtureCollection.get (.prov "FooInfo" "foo=foo1") =
      .error (.AtTypeNotProvider .Get "FooInfo") :=
  C7_key_not_provider_type fixtureCollection (.prov "FooInfo" "foo=foo1") rfl

/-- C8: the default (whole-collection) selector returns a duplicate of the
handle without traversal, and an unrecognized legacy flavor always fails
with `UnsupportedFlavor` naming the unconfigured target and the flavor,
independent of the collection contents. -/
theorem C8_default_and_flavor_selectors (self : FrozenProviderCollectionValue)
    (label : ConfiguredProvidersLabel) :
    (label.name = .Default → self.lookup_inner label = some (.ok self)) ∧
    (∀ flavor, label.name = .NonDefault (.UnrecognizedFlavor flavor) →
      self.lookup_inner label = some (.error (.UnknownFlavors label.target flavor))) := by
  constructor
  · intro h
    simp [FrozenProviderCollectionValue.lookup_inner, h]
  · intro flavor h
    simp [FrozenProviderCollectionValue.lookup_inner, h]

/-- C8 witness at a concrete handle, with the default selector and with a
legacy flavor. -/
theorem C8_default_and_flavor_selectors_witness :
    FrozenProviderCollectionValue.lookup_inner ⟨⟨topProviders⟩⟩ ⟨"cell//pkg:tgt", .Default⟩ =
      some (.ok ⟨⟨topProviders⟩⟩) ∧
    FrozenProviderCollectionValue.lookup_inner ⟨⟨topProviders⟩⟩
        ⟨"cell//pkg:tgt", .NonDefault (.UnrecognizedFlavor "shared")⟩ =
      some (.error (.UnknownFlavors "cell//pkg:tgt" "shared")) :=
  ⟨(C8_default_and_flavor_selectors ⟨⟨topProviders⟩⟩ ⟨"cell//pkg:tgt", .Default⟩).1 rfl,
   (C8_default_and_flavor_selectors ⟨⟨topProviders⟩⟩
     ⟨"cell//pkg:tgt", .NonDefault (.UnrecognizedFlavor "shared")⟩).2 "shared" rfl⟩

/-- The per-site counter counts exactly the number of calls. -/
theorem runSoftErrors_count (hard : Option HardErrorConfig) (reg : Bool)
    (category err : String) :
    ∀ (n c : Nat), runSoftErrors hard reg category err n c = c + n := by
  intro n
  induction n with
  | zero => intro c; simp [runSoftErrors]
  | succ n ih =>
    intro c
    rw [runSoftErrors, ih]
    simp [handle_soft_error]
    omega

/-- C10: with a registered handler, `handle_soft_error` invokes the handler
exactly when the call-site counter is below 10 before the increment; the
counter counts calls, so from a reset counter the handler stops firing
after 10 calls until `reset_soft_error_counters` zeroes the counters; and
independently of the handler the original error is returned as `Ok` unless
the hard-error configuration selects its category, in which case `Err` is
returned. -/
theorem C10_soft_error_behavior (hard : Option HardErrorConfig) (category err : String)
    (count n : Nat) :
    ((handle_soft_error hard true category err count).handlerInvoked = true ↔ count < 10) ∧
    (handle_soft_error hard true category err count).newCount = count + 1 ∧
    runSoftErrors hard true category err n 0 = n ∧
    (10 ≤ count → (handle_soft_error hard true category err count).handlerInvoked = false) ∧
    (∀ counters : List Nat, ∀ x ∈ reset_soft_error_counters counters, x = 0) ∧
    (handle_soft_error hard true category err 0).handlerInvoked = true ∧
    ((handle_soft_error hard true category err count).result = .ok err ↔
      ∀ h, hard = some h → h.should_hard_error category = false) ∧
    (∀ h, hard = some h → h.should_hard_error category = true →
      (handle_soft_error hard true category err count).result =
        .error ("Upgraded warning to failure via $BUCK2_HARD_ERROR: " ++ err)) := by
  refine ⟨?_, rfl, by simpa using runSoftErrors_count hard true category err n 0, ?_, ?_, ?_, ?_, ?_⟩
  · simp [handle_soft_error]
  · intro h
    simp [handle_soft_error]
    omega
  · intro counters x hx
    obtain ⟨a, ha, h0⟩ := List.mem_map.mp hx
    exact h0.symm
  · simp [handle_soft_error]
  · cases hard with
    | none => simp [handle_soft_error]
    | some h =>
      by_cases hs : h.should_hard_error category <;>
        simp [handle_soft_error, hs]
  · intro h hh hs
    subst hh
    simp [handle_soft_error, hs]

/-- C10 witness: at counter value 10 the handler no longer fires, a
selected category upgrades the result to an error, and 12 calls advance
the counter to 12. -/
theorem C10_soft_error_behavior_witness :
    (handle_soft_error (some (.selected ["test_category"])) true "test_category" "boom"
      10).handlerInvoked = false ∧
    (handle_soft_error (some (.selected ["test_category"])) true "test_category" "boom"
      10).result = .error ("Upgraded warning to failure via $BUCK2_HARD_ERROR: " ++ "boom") ∧
    runSoftErrors (some (.selected ["test_category"])) true "test_category" "boom" 12 0 = 12 :=
  ⟨(C10_soft_error_behavior (some (.selected ["test_category"])) "test_category" "boom"
      10 12).2.2.2.1 (by decide),
   (C10_soft_error_behavior (some (.selected ["test_category"])) "test_category" "boom"
      10 12).2.2.2.2.2.2.2 _ rfl (by decide),
   (C10_soft_error_behavior (some (.selected ["test_category"])) "test_category" "boom"
      10 12).2.2.1⟩

/-- C3: when element validation succeeds but DefaultInfo is absent, the
strict entry point fails with `MissingDefaultOutput` while the lenient one
uses the factory value: a non-DefaultInfo factory product fails with
`FactoryProducedWrongType`, a DefaultInfo product is appended under the
DefaultInfo identity.  When DefaultInfo is present, both entry points
return the validated map and the lenient result does not depend on the
factory at all (the factory is not invoked). -/
theorem C3_two_entry_points (value : Value) (m : SmallMap ProviderId Value)
    (himpl : try_from_value_impl value = .ok m) :
    (SmallMap.contains_key m ProviderId.defaultInfoId = false →
      try_from_value value = .error (.CollectionMissingDefaultInfo value.to_repr) ∧
      ∀ creator : Unit → Value,
        ((DefaultInfo.from_value (creator ())).isNone →
          try_from_value_with_default_info value creator =
            .error (.ValueIsNotDefaultInfo (creator ()).to_repr)) ∧
        (∀ di, DefaultInfo.from_value (creator ()) = some di →
          try_from_value_with_default_info value creator =
            .ok ⟨m ++ [(ProviderId.defaultInfoId, creator ())]⟩)) ∧
    (SmallMap.contains_key m ProviderId.defaultInfoId = true →
      try_from_value value = .ok ⟨m⟩ ∧
      ∀ creator : Unit → Value,
        try_from_value_with_default_info value creator = .ok ⟨m⟩) := by
  constructor
  · intro habs
    have hnone : SmallMap.get m ProviderId.defaultInfoId = none := by
      cases hg : SmallMap.get m ProviderId.defaultInfoId
      · rfl
      · simp [SmallMap.contains_key, hg] at habs
    have hnotmem : ProviderId.defaultInfoId ∉ m.map Prod.fst :=
      (SmallMap.get_eq_none_iff m _).mp hnone
    refine ⟨?_, fun creator => ⟨?_, ?_⟩⟩
    · simp [try_from_value, himpl, habs]
    · intro hfact
      simp [try_from_value_with_default_info, himpl, habs, hfact]
    · intro di hdi
      have hins := SmallMap.insertGet_snd_of_not_mem hnotmem (creator ())
      simp [try_from_value_with_default_info, himpl, habs, hdi, hins]
  · intro hpres
    refine ⟨?_, fun creator => ?_⟩ <;>
      simp [try_from_value, try_from_value_with_default_info, himpl, hpres]

/-- C3 witness: a DefaultInfo-less input fails strictly, the factory path
rejects a non-DefaultInfo product and appends a DefaultInfo product; with
DefaultInfo present both entry points ignore the factory. -/
theorem C3_two_entry_points_witness :
    try_from_value noDIInput = .error (.CollectionMissingDefaultInfo noDIInput.to_repr) ∧
    try_from_value_with_default_info noDIInput (fun _ => .vstr "oops") =
      .error (.ValueIsNotDefaultInfo (Value.vstr "oops").to_repr) ∧
    try_from_value_with_default_info noDIInput (fun _ => .defaultInfo [] []) =
      .ok ⟨noDIMap ++ [(ProviderId.defaultInfoId, .defaultInfo [] [])]⟩ ∧
    try_from_value diOnlyInput = .ok ⟨diOnlyMap⟩ ∧
    try_from_value_with_default_info diOnlyInput (fun _ => .vstr "never used") =
      .ok ⟨diOnlyMap⟩ := by
  refine ⟨?_, ?_, ?_, ?_, ?_⟩
  · exact ((C3_two_entry_points noDIInput noDIMap rfl).1 rfl).1
  · exact (((C3_two_entry_points noDIInput noDIMap rfl).1 rfl).2 _).1 rfl
  · exact (((C3_two_entry_points noDIInput noDIMap rfl).1 rfl).2 _).2 _ rfl
  · exact ((C3_two_entry_points diOnlyInput diOnlyMap rfl).2 rfl).1
  · exact ((C3_two_entry_points diOnlyInput diOnlyMap rfl).2 rfl).2 _

/-- C4 (amended): for every input list of elements all exposing provider
identities, if some identity occurs at two positions then construction
fails, in both entry points, with `DuplicateProvider` reporting the
display name of a duplicated identity and the textual forms of two
elements of the list carrying that same identity; detection is by identity
only, so differing field payloads still conflict. -/
theorem C4_duplicate_identity (xs : List Value)
    (hall : ∀ y ∈ xs, (Value.as_provider y).isSome)
    (hdup : ¬ (xs.filterMap Value.as_provider).Nodup) :
    ∃ pid orig confl,
      try_from_value (.vlist xs) =
        .error (.CollectionSpecifiedProviderTwice pid.name orig.to_repr confl.to_repr) ∧
      (∀ creator, try_from_value_with_default_info (.vlist xs) creator =
        .error (.CollectionSpecifiedProviderTwice pid.name orig.to_repr confl.to_repr)) ∧
      orig ∈ xs ∧ confl ∈ xs ∧
      Value.as_provider orig = some pid ∧ Value.as_provider confl = some pid := by
  have himpl : try_from_value_impl (.vlist xs) = insertLoop xs [] := rfl
  obtain ⟨e, he⟩ := insertLoop_dup_error (m := []) hall (by simp) (by simpa using hdup)
  obtain ⟨pid, orig, confl, hshape, ho, hcf, hop, hcp⟩ :=
    insertLoop_error_shape (m := []) (fun y hy => ⟨hy, hall y hy⟩) (by simp) he
  subst hshape
  have hprop := construction_error_propagates (himpl.trans he)
  exact ⟨pid, orig, confl, hprop.1, hprop.2, ho, hcf, hop, hcp⟩

/-- C4 witness: two FooInfo instances with different field payloads
conflict by identity alone. -/
theorem C4_duplicate_identity_witness :
    ∃ pid orig confl,
      try_from_value (.vlist [.prov "FooInfo" "foo=1", .prov "FooInfo" "foo=2"]) =
        .error (.CollectionSpecifiedProviderTwice pid.name orig.to_repr confl.to_repr) ∧
      (∀ creator,
        try_from_value_with_default_info
          (.vlist [.prov "FooInfo" "foo=1", .prov "FooInfo" "foo=2"]) creator =
        .error (.CollectionSpecifiedProviderTwice pid.name orig.to_repr confl.to_repr)) ∧
      orig ∈ [Value.prov "FooInfo" "foo=1", Value.prov "FooInfo" "foo=2"] ∧
      confl ∈ [Value.prov "FooInfo" "foo=1", Value.prov "FooInfo" "foo=2"] ∧
      Value.as_provider orig = some pid ∧ Value.as_provider confl = some pid :=
  C4_duplicate_identity [.prov "FooInfo" "foo=1", .prov "FooInfo" "foo=2"]
    (by decide) (by decide)

/-- C4 counterexample to the claim as stated: `c4Elems` contains two
elements with equal provider identities, yet construction fails with
`ElementNotAProvider` (for the intervening non-provider element), not with
`DuplicateProvider`. -/
theorem C4_counterexample :
    try_from_value c4Input =
      .error (.CollectionElementNotAProvider (Value.vstr "not a provider").to_repr) ∧
    Value.as_provider (.prov "FooInfo" "foo=1") = some (.user "FooInfo") ∧
    Value.as_provider (.prov "FooInfo" "foo=2") = some (.user "FooInfo") ∧
    resultIsSpecifiedTwice (try_from_value c4Input) = false :=
  ⟨rfl, rfl, rfl, rfl⟩

/-- C6 (amended): an input that is not a list after resolving a promise
wrapper on the input itself fails with `NotAList` reporting the resolved
input, in both entry points; for an input list, the first rule-violating
element in left-to-right order decides the error, so an element lacking a
provider identity yields `ElementNotAProvider` with exactly its textual
form provided all elements before it are providers with pairwise distinct
identities. -/
theorem C6_input_classification (value : Value) :
    (ListRef.from_value (StarlarkPromise.get_recursive value) = none →
      try_from_value value =
        .error (.CollectionNotAList (StarlarkPromise.get_recursive value).to_repr) ∧
      ∀ creator, try_from_value_with_default_info value creator =
        .error (.CollectionNotAList (StarlarkPromise.get_recursive value).to_repr)) ∧
    (∀ pre x post, StarlarkPromise.get_recursive value = .vlist (pre ++ x :: post) →
      (∀ y ∈ pre, (Value.as_provider y).isSome) →
      (pre.filterMap Value.as_provider).Nodup →
      Value.as_provider x = none →
      try_from_value value = .error (.CollectionElementNotAProvider x.to_repr) ∧
      ∀ creator, try_from_value_with_default_info value creator =
        .error (.CollectionElementNotAProvider x.to_repr)) := by
  constructor
  · intro hnl
    have himpl : try_from_value_impl value =
        .error (.CollectionNotAList (StarlarkPromise.get_recursive value).to_repr) := by
      unfold try_from_value_impl
      rw [hnl]
    exact construction_error_propagates himpl
  · intro pre x post hlist hall hnd hx
    have himpl : try_from_value_impl value = insertLoop (pre ++ x :: post) [] := by
      unfold try_from_value_impl
      rw [hlist]
      rfl
    have hclean := insertLoop_clean (m := []) (x :: post) hall (by simpa using hnd)
    have herr := hclean.trans (insertLoop_cons_of_not_provider hx)
    exact construction_error_propagates (himpl.trans herr)

/-- C6 witness: a promise-wrapped non-list fails `NotAList` with the
resolved value, and a list whose first offending element is a non-provider
fails `ElementNotAProvider` with exactly that element. -/
theorem C6_input_classification_witness :
    (try_from_value (.promise (.vstr "not a list")) =
      .error (.CollectionNotAList (Value.vstr "not a list").to_repr)) ∧
    (try_from_value (.vlist [.defaultInfo [] [], .vstr "oops"]) =
      .error (.CollectionElementNotAProvider (Value.vstr "oops").to_repr)) :=
  ⟨((C6_input_classification (.promise (.vstr "not a list"))).1 rfl).1,
   ((C6_input_classification (.vlist [.defaultInfo [] [], .vstr "oops"])).2
     [.defaultInfo [] []] (.vstr "oops") [] rfl (by decide) (by decide) rfl).1⟩

/-- C6 counterexample to the claim as stated: `c6Elems` contains an
element that does not expose a provider identity, yet construction fails
with `DuplicateProvider` (for the pair of FooInfo elements appearing
earlier), not with `ElementNotAProvider`. -/
theorem C6_counterexample :
    try_from_value c6Input =
      .error (.CollectionSpecifiedProviderTwice "FooInfo"
        (Value.prov "FooInfo" "foo=1").to_repr (Value.prov "FooInfo" "foo=2").to_repr) ∧
    Value.as_provider (.vstr "oops") = none ∧
    (Value.vstr "oops") ∈ c6Elems ∧
    resultIsElementNotAProvider (try_from_value c6Input) = false := by
  refine ⟨rfl, rfl, by simp [c6Elems], rfl⟩

/-- C5: a successful freeze produces a map whose entries correspond
pairwise, in order, to the mutable entries — identical identities and each
value individually frozen (hence no entry is dropped or reordered); and if
freezing any single stored value fails, the whole transition returns an
error, so no partially frozen collection is produced. -/
theorem C5_freeze_transition {ε : Type} (freezer : Value → Except ε Value)
    (c : ProviderCollection) :
    (∀ fc, c.freeze freezer = .ok fc →
      List.Forall₂ (fun p q => p.1 = q.1 ∧ freezer p.2 = .ok q.2)
        c.providers fc.providers ∧
      fc.providers.map Prod.fst = c.providers.map Prod.fst) ∧
    ((∃ p ∈ c.providers, ∀ w, freezer p.2 ≠ .ok w) →
      ∃ e, c.freeze freezer = .error e) := by
  constructor
  · intro fc hf
    have hfa := freezePairs_ok_forall (freeze_ok_inv hf)
    exact ⟨hfa, forall₂_keys_eq (fun p q h => h.1) hfa⟩
  · rintro ⟨p, hp, hfail⟩
    cases hres : c.freeze freezer with
    | error e => exact ⟨e, rfl⟩
    | ok fc =>
      have hfa := freezePairs_ok_forall (freeze_ok_inv hres)
      obtain ⟨q, hq, hpq⟩ := forall₂_mem_left hfa hp
      exact absurd hpq.2 (hfail q.2)

/-- C5 witness: a collection of freezable values freezes to the pointwise
frozen map, and a collection holding one unfreezable value makes the whole
transition fail. -/
theorem C5_freeze_transition_witness :
    (List.Forall₂ (fun p q => p.1 = q.1 ∧ c5Freezer p.2 = .ok q.2)
      c5OkCollection.providers c5OkCollection.providers ∧
      c5OkCollection.providers.map Prod.fst = c5OkCollection.providers.map Prod.fst) ∧
    ∃ e, c5BadCollection.freeze c5Freezer = .error e := by
  constructor
  · exact (C5_freeze_transition c5Freezer c5OkCollection).1 ⟨c5OkCollection.providers⟩ rfl
  · exact (C5_freeze_transition c5Freezer c5BadCollection).2
      ⟨(.user "BadInfo", .vstr "unfreezable"), by simp [c5BadCollection],
       fun w h => by simp [c5Freezer] at h⟩

/-- C9: a frozen collection obtained by validated strict construction
followed by a type-preserving freeze contains the DefaultInfo identity,
and both `default_info` and `default_info_value` succeed: the `expect`
assertions inside them are unreachable. -/
theorem C9_default_info_never_panics {ε : Type} (value : Value)
    (c : ProviderCollection) (fc : FrozenProviderCollection)
    (freezer : Value → Except ε Value)
    (hc : try_from_value value = .ok c)
    (hty : ∀ st douts w, freezer (.defaultInfo st douts) = .ok w →
      (DefaultInfo.from_value w).isSome)
    (hf : c.freeze freezer = .ok fc) :
    SmallMap.contains_key fc.providers ProviderId.defaultInfoId = true ∧
    fc.default_info.isSome ∧ fc.default_info_value.isSome := by
  obtain ⟨himpl, hpres⟩ := try_from_value_ok_inv hc
  obtain ⟨v, hv⟩ : ∃ v, SmallMap.get c.providers ProviderId.defaultInfoId = some v := by
    cases hg : SmallMap.get c.providers ProviderId.defaultInfoId
    · simp [SmallMap.contains_key, hg] at hpres
    · exact ⟨_, rfl⟩
  have hvid : Value.as_provider v = some ProviderId.defaultInfoId :=
    try_from_value_entries hc _ (SmallMap.get_mem hv)
  obtain ⟨st, douts, rfl⟩ : ∃ st douts, v = .defaultInfo st douts := by
    cases v
    case defaultInfo st douts => exact ⟨st, douts, rfl⟩
    all_goals simp [Value.as_provider] at hvid
  obtain ⟨w, hw, hgw⟩ := freezePairs_get (freeze_ok_inv hf) hv
  have hws : (DefaultInfo.from_value w).isSome := hty st douts w hw
  refine ⟨?_, ?_, ?_⟩
  · simp [SmallMap.contains_key, hgw]
  · simp [FrozenProviderCollection.default_info, hgw]
    exact hws
  · simp [FrozenProviderCollection.default_info_value, hgw]

/-- C9 witness at a concrete validated collection and an identity freezer. -/
theorem C9_default_info_never_panics_witness :
    SmallMap.contains_key (⟨diOnlyMap⟩ : FrozenProviderCollection).providers
      ProviderId.defaultInfoId = true ∧
    (⟨diOnlyMap⟩ : FrozenProviderCollection).default_info.isSome ∧
    (⟨diOnlyMap⟩ : FrozenProviderCollection).default_info_value.isSome :=
  C9_default_info_never_panics diOnlyInput ⟨diOnlyMap⟩ ⟨diOnlyMap⟩ idFreezer rfl
    (fun st douts w h => by cases h; rfl) rfl

/-- C1 (amended): whenever named sub-target resolution fails, it fails with
`InvalidSubTarget` naming a missing segment of the path, the original full
target label, and the sub-target names of the default-output provider of
the top-level collection the lookup started from (recomputed from the
`try_map` closure parameter at the failure point), not the sub-target
names of the last successfully reached level. -/
theorem C1_invalid_subtarget_lists_top_level (self : FrozenProviderCollectionValue)
    (label : ConfiguredProvidersLabel) (names : List String)
    (hname : label.name = .NonDefault (.Named names))
    (e : ProviderCollectionError)
    (herr : self.lookup_inner label = some (.error e)) :
    ∃ seg vdi, seg ∈ names ∧ self.collection.default_info = some vdi ∧
      e = .RequestedInvalidSubTarget seg label (vdi.sub_targets.map fun s => s.1) := by
  obtain ⟨target, lname⟩ := label
  have hname2 : lname = .NonDefault (.Named names) := hname
  subst hname2
  have herr2 : (match lookupLoop ⟨target, .NonDefault (.Named names)⟩ self.collection names
      self.collection with
    | none => (none : Option (Except ProviderCollectionError FrozenProviderCollectionValue))
    | some (.ok c) => some (.ok ⟨c⟩)
    | some (.error e2) => some (.error e2)) = some (.error e) := herr
  cases hl : lookupLoop ⟨target, .NonDefault (.Named names)⟩ self.collection names
      self.collection with
  | none => rw [hl] at herr2; exact absurd herr2 (by simp)
  | some r =>
    rw [hl] at herr2
    cases r with
    | ok c => exact absurd herr2 (by simp)
    | error e2 =>
      obtain rfl : e2 = e := Except.error.inj (Option.some.inj herr2)
      exact lookupLoop_error_shape hl

/-- C1 witness at the two-level fixture: the reported segment is `b` from
the path, the label is the full original label, and the listed names are
those of the top-level DefaultInfo. -/
theorem C1_invalid_subtarget_lists_top_level_witness :
    ∃ seg vdi, seg ∈ ["a", "b"] ∧
      FrozenProviderCollection.default_info ⟨topProviders⟩ = some vdi ∧
      ProviderCollectionError.RequestedInvalidSubTarget "b" labelAB ["a"] =
        .RequestedInvalidSubTarget seg labelAB (vdi.sub_targets.map fun s => s.1) :=
  C1_invalid_subtarget_lists_top_level ⟨⟨topProviders⟩⟩ labelAB ["a", "b"] rfl _ rfl

/-- C1 counterexample to the claim as stated: descending `a/b` from the
fixture fails at segment `b` inside the inner collection, whose available
sub-target names are `[c]`, yet the error lists `[a]` — the top-level
collection sub-target names, not those of the last successfully reached
level. -/
theorem C1_counterexample :
    FrozenProviderCollectionValue.lookup_inner ⟨⟨topProviders⟩⟩ labelAB =
      some (.error (.RequestedInvalidSubTarget "b" labelAB ["a"])) ∧
    (FrozenProviderCollection.default_info ⟨innerProviders⟩).map
      (fun di => di.sub_targets.map fun s => s.1) = some ["c"] ∧
    (["a"] : List String) ≠ ["c"] :=
  ⟨rfl, rfl, by decide⟩

end Buck2
